import Mathlib

/-!
Shallow embedding of `txsuds/transport/twisted_transport.py`, the
Twisted-based HTTP transport for the suds SOAP client, together with models
of the small pieces of the Python standard library and of the Twisted
framework that the module's control flow depends on.

Effects are made explicit: the filesystem is a partial map from path to
contents, and the outcome of an HTTP exchange is an oracle from the issued
call to either a response or a transport-level failure.  Python byte strings
are modelled as Lean strings over their code points.  Deferred values are
modelled by explicit result values together with a `fired` flag on the
response consumer.
-/

namespace TxSuds

/-- Worker for `pySplit`: split a character list at a separator character,
carrying the current (reversed) piece. -/
def splitCharAux (sep : Char) : List Char → List Char → List String
  | [], acc => [String.mk acc.reverse]
  | c :: rest, acc =>
    if c == sep then String.mk acc.reverse :: splitCharAux sep rest []
    else splitCharAux sep rest (c :: acc)

/-- Models Python `s.split(sep)` for a single-character separator, as used
by `proxy.split(":")` in `TwistedTransport._request`. -/
def pySplit (sep : Char) (s : String) : List String :=
  splitCharAux sep s.toList []

/-- Python's default `strip` whitespace characters. -/
def isPySpace (c : Char) : Bool :=
  c == ' ' || c == '\t' || c == '\n' || c == '\r' || c == '\x0b' || c == '\x0c'

/-- Models Python `s.strip()`: remove leading and trailing whitespace. -/
def pyStrip (s : String) : String :=
  String.mk (((s.toList.dropWhile isPySpace).reverse.dropWhile isPySpace).reverse)

/-- Decimal value of a digit run, accumulator style (48 is the code point
of `0`). -/
def digitsVal : List Char → Nat → Nat
  | [], acc => acc
  | c :: rest, acc => digitsVal rest (10 * acc + (c.toNat - 48))

/-- Models Python `int(s)` on strings, returning `none` where the Python
call raises `ValueError`: optional surrounding whitespace, an optional
sign, then a non-empty run of decimal digits. -/
def pyInt? (s : String) : Option Int :=
  let t := (pyStrip s).toList
  let signDigits : Int × List Char :=
    match t with
    | '-' :: rest => (-1, rest)
    | '+' :: rest => (1, rest)
    | _ => (1, t)
  if signDigits.2.length > 0 && signDigits.2.all Char.isDigit then
    some (signDigits.1 * (digitsVal signDigits.2 0 : Nat))
  else none

/-- Models Python `s.lower()` (ASCII). -/
def pyLower (s : String) : String := String.mk (s.toList.map Char.toLower)

/-- Models Python `s.startswith(pre)`. -/
def pyStartswith (s pre : String) : Bool := pre.toList.isPrefixOf s.toList

/-- Models Python `s.endswith(suf)`. -/
def pyEndswith (s suf : String) : Bool := suf.toList.isSuffixOf s.toList

/-- Characters allowed in a URL scheme by Python's `urlparse`. -/
def isSchemeChar (c : Char) : Bool :=
  c.isAlpha || c.isDigit || c == '+' || c == '-' || c == '.'

/-- Models scheme extraction of Python 2's `urlparse.urlparse(url).scheme`
(external standard library): the lowercased text before the first `:`,
provided it is non-empty, consists of scheme characters, and the remainder
is not a bare run of digits (a port number). -/
def urlScheme (url : String) : String :=
  let cs := url.toList
  let before := cs.takeWhile (fun c => c != ':')
  if before.length == cs.length then ""
  else
    let after := (cs.drop before.length).drop 1
    if before.length > 0 && before.all isSchemeChar &&
       (after.isEmpty || after.any (fun c => !c.isDigit)) then
      String.mk (before.map Char.toLower)
    else ""

/-- Hexadecimal digit value, for percent decoding (code points: `0`-`9`
are 48-57, `A`-`F` 65-70, `a`-`f` 97-102). -/
def hexVal? (c : Char) : Option Nat :=
  let n := c.toNat
  if 48 ≤ n && n ≤ 57 then some (n - 48)
  else if 65 ≤ n && n ≤ 70 then some (n - 55)
  else if 97 ≤ n && n ≤ 102 then some (n - 87)
  else none

/-- Percent decoding over a character list, as done by Python's
`urllib.unquote`: a `%` followed by two hex digits becomes the coded
character, anything else is kept as is. -/
def pyUnquote : List Char → List Char
  | [] => []
  | '%' :: a :: b :: rest =>
    match hexVal? a, hexVal? b with
    | some ha, some hb => Char.ofNat (ha * 16 + hb) :: pyUnquote rest
    | _, _ => '%' :: pyUnquote (a :: b :: rest)
  | c :: rest => c :: pyUnquote rest

/-- Models Python's `urllib.url2pathname` on POSIX (external standard
library), which is percent decoding. -/
def url2pathname (s : String) : String := String.mk (pyUnquote s.toList)

/-- Models Python's `os.path.join(a, b)` for two components on POSIX
(external standard library). -/
def osPathJoin (a b : String) : String :=
  if pyStartswith b "/" then b
  else if a == "" || pyEndswith a "/" then a ++ b
  else a ++ "/" ++ b

/-- Byte view of a Python 2 byte string (code points, ASCII assumed). -/
def strBytes (s : String) : List Nat := s.toList.map Char.toNat

/-- Concatenation of a list of strings in order. -/
def concatChunks : List String → String
  | [] => ""
  | s :: rest => s ++ concatChunks rest

/-- The base64 alphabet, indexed. -/
def b64Char (n : Nat) : Char :=
  ("ABCDEFGHIJKLMNOPQRSTUVWXYZabcdefghijklmnopqrstuvwxyz0123456789+/".toList).getD n '='

/-- RFC 4648 base64 of a byte list, with `=` padding. -/
def b64EncodeBytes : List Nat → List Char
  | [] => []
  | [a] => [b64Char (a / 4), b64Char (a % 4 * 16), '=', '=']
  | [a, b] => [b64Char (a / 4), b64Char (a % 4 * 16 + b / 16), b64Char (b % 16 * 4), '=']
  | a :: b :: c :: rest =>
    b64Char (a / 4) :: b64Char (a % 4 * 16 + b / 16) ::
    b64Char (b % 16 * 4 + c / 64) :: b64Char (c % 64) :: b64EncodeBytes rest

/-- Cut a byte list into 57-byte slices; the first argument is fuel,
instantiated with the list's length. -/
def chunksOf57 : Nat → List Nat → List (List Nat)
  | 0, _ => []
  | _ + 1, [] => []
  | fuel + 1, b :: rest => (b :: rest).take 57 :: chunksOf57 fuel ((b :: rest).drop 57)

/-- Models Python 2's `s.encode("base64")` (i.e. `base64.encodestring`,
external standard library): the input is encoded in 57-byte slices, each
producing one 76-character line terminated by a newline. -/
def pyEncodestring (bytes : List Nat) : String :=
  concatChunks ((chunksOf57 bytes.length bytes).map
    (fun chunk => String.mk (b64EncodeBytes chunk) ++ "\n"))

/-- A completed HTTP response as seen through Twisted's client API: the
status `code`, the raw response headers (as produced by
`headers.getAllRawHeaders()`: one entry per header name with its list of
raw values), and the body, delivered in chunks. -/
structure HttpResponse where
  code : Nat
  headers : List (String × List String)
  bodyChunks : List String
deriving DecidableEq, Repr

/-! ### StringResponseConsumer (lines 23-50 of the source)

The consumer is a Twisted `Protocol`; we model its mutable state as a
record and its callback methods as a step function over delivery events.
The deferred `_finished` is modelled by the `fired` flag; in the source the
callback value is the consumer object itself (`self`). -/

/-- State of a `StringResponseConsumer`: the accumulated `body`, whether the
`_finished` deferred has been fired, and the `response` attribute. -/
structure StringResponseConsumer where
  body : String
  fired : Bool
  response : Option HttpResponse
deriving DecidableEq, Repr

/-- The consumer as built by `StringResponseConsumer.__init__`. -/
def initConsumer : StringResponseConsumer :=
  { body := "", fired := false, response := none }

/-- Events delivered to a consumer: `dataReceived`, `connectionLost`, or
`responseWithoutBody`. -/
inductive ConsumerEvent where
  | dataReceived (data : String)
  | connectionLost
  | responseWithoutBody
deriving DecidableEq, Repr

/-- One callback invocation on the consumer: `dataReceived` appends to
`body`; `connectionLost` and `responseWithoutBody` fire `_finished`. -/
def StringResponseConsumer.step (c : StringResponseConsumer) :
    ConsumerEvent → StringResponseConsumer
  | .dataReceived d => { c with body := c.body ++ d }
  | .connectionLost => { c with fired := true }
  | .responseWithoutBody => { c with fired := true }

/-- Run a fresh consumer over a sequence of delivered events. -/
def runConsumer (events : List ConsumerEvent) : StringResponseConsumer :=
  events.foldl StringResponseConsumer.step initConsumer

/-- The data chunk carried by an event, when it is a `dataReceived`. -/
def chunkOf : ConsumerEvent → Option String
  | .dataReceived d => some d
  | .connectionLost => none
  | .responseWithoutBody => none

/-- Whether an event is a completion signal (`connectionLost` or
`responseWithoutBody`). -/
def isCompletionEvent : ConsumerEvent → Bool
  | .dataReceived _ => false
  | .connectionLost => true
  | .responseWithoutBody => true

/-! ### Options, TLS context factory and transport state -/

/-- The ten extra options forwarded verbatim by `_getContextFactory` to the
`ContextFactory` constructor.  Their values are opaque to this module; we
model each as a string. -/
structure TLSExtra where
  method : String
  verify : String
  caCerts : String
  verifyDepth : String
  requireCertificate : String
  verifyOnce : String
  enableSingleUseKeys : String
  enableSessions : String
  fixBrokenPeers : String
  enableSessionTickets : String
deriving DecidableEq, Repr

/-- The suds `Options` fields this module reads (external collaborator):
credentials, the proxy map from URL scheme to a `host:port` string, the
connect timeout, and the TLS material. -/
structure Options where
  username : Option String
  password : Option String
  proxy : List (String × String)
  timeout : Nat
  certificate : Option String
  privateKey : Option String
  tlsExtra : TLSExtra
deriving DecidableEq, Repr

/-- Result of `OpenSSL.crypto.load_certificate` or `load_privatekey`
(external library), modelled as an opaque wrapper of the PEM text it was
given. -/
structure PEMObject where
  pemData : String
deriving DecidableEq, Repr

/-- The `ContextFactory` of lines 125-133: a `CertificateOptions` carrying
the loaded certificate and private key plus the forwarded options. -/
structure ContextFactory where
  certificate : Option PEMObject
  privateKey : Option PEMObject
  extra : TLSExtra
deriving DecidableEq, Repr

/-- A TLS context as produced by `CertificateOptions.getContext(self)`
(external framework), determined by the certificate options it was built
from. -/
structure TLSContext where
  fromOptions : ContextFactory
deriving DecidableEq, Repr

/-- The overridden `ContextFactory.getContext(self, hostname, port)` of
line 132: it ignores both arguments and returns the context built from the
certificate options alone. -/
def ContextFactory.getContext (cf : ContextFactory) (hostname : String)
    (port : Int) : TLSContext :=
  TLSContext.mk cf

/-- The filesystem, as a partial map from path to contents: `files p` is
the contents of the regular file at `p` when one exists. -/
structure FS where
  files : String → Option String

/-- Helper shared by the certificate and private-key blocks of
`_getContextFactory` (lines 216-229): when the option is set to a truthy
(non-empty) string, read the file at that path when one exists, otherwise
treat the string as literal PEM data, and load the result. -/
def loadPemMaybe (fs : FS) (optVal : Option String) : Option PEMObject :=
  match optVal with
  | none => none
  | some s =>
    if s == "" then none
    else
      match fs.files s with
      | some contents => some (PEMObject.mk contents)
      | none => some (PEMObject.mk s)

/-- The `ContextFactory` constructed by `_getContextFactory` from the
current options (lines 215-241). -/
def buildContextFactory (o : Options) (fs : FS) : ContextFactory :=
  { certificate := loadPemMaybe fs o.certificate
    privateKey := loadPemMaybe fs o.privateKey
    extra := o.tlsExtra }

/-- State of a `TwistedTransport`: its `options` and the memoization slot
`self._contextFactory` (initially `None`). -/
structure TwistedTransport where
  options : Options
  contextFactoryCache : Option ContextFactory
deriving DecidableEq, Repr

/-- `TwistedTransport._getContextFactory` (lines 207-242): return the
cached factory when one exists, otherwise build one from the current
options and cache it. -/
def TwistedTransport.getContextFactory (t : TwistedTransport) (fs : FS) :
    ContextFactory × TwistedTransport :=
  match t.contextFactoryCache with
  | some cf => (cf, t)
  | none =>
    let cf := buildContextFactory t.options fs
    (cf, { t with contextFactoryCache := some cf })

/-! ### Request dispatch -/

/-- The agent `_request` constructs: either a `ProxyAgent` on a
`TCP4ClientEndpoint` at the configured proxy host and port (with the
options timeout), or a direct `NewAgent` with the transport's context
factory and connect timeout. -/
inductive AgentKind where
  | proxyAgent (host : String) (port : Int) (timeout : Nat)
  | newAgent (contextFactory : ContextFactory) (connectTimeout : Nat)
deriving DecidableEq, Repr

/-- An HTTP call as issued by `agent.request(method, url, headers,
producer)`: the chosen agent, the method, the URL, the headers in the
order they were added, and the produced body. -/
structure HttpCall where
  agent : AgentKind
  method : String
  url : String
  headers : List (String × String)
  body : String
deriving DecidableEq, Repr

/-- Outcome of an HTTP exchange: a completed response, or a
transport-level failure with a reason. -/
inductive NetOutcome where
  | success (resp : HttpResponse)
  | failure (reason : String)
deriving DecidableEq, Repr

/-- Errors surfaced by the transport: Python `ValueError` (malformed proxy
option), a failed connection or exchange, `AttributeError`, and `IOError`
on a local file. -/
inductive TransportError where
  | valueError
  | connectionFailed (reason : String)
  | attributeError
  | ioError (path : String)
deriving DecidableEq, Repr

/-- A transport request as handed to `open`/`send` by suds (external
collaborator): URL, headers, and optional message body. -/
structure TransportRequest where
  url : String
  headers : List (String × String)
  message : Option String
deriving DecidableEq, Repr

/-- The header construction of `_request` (lines 250-260): copy the
request's headers, then add basic authentication exactly when both a
username and a password are set. -/
def buildRequestHeaders (reqHeaders : List (String × String)) (o : Options) :
    List (String × String) :=
  match o.username, o.password with
  | some u, some p =>
    reqHeaders ++
      [("Authorization",
        "Basic " ++ pyStrip (pyEncodestring (strBytes (u ++ ":" ++ p))))]
  | _, _ => reqHeaders

/-- The agent-selection part of `_request` (lines 262-274): look the URL's
scheme up in the proxy map; with an entry, split it into host and port and
aim a `ProxyAgent` at that endpoint (a malformed entry raises `ValueError`
before any state change); without one, use a direct `NewAgent` with the
transport's (memoized) context factory and the configured timeout. -/
def TwistedTransport.prepareAgent (t : TwistedTransport)
    (req : TransportRequest) (fs : FS) :
    Except TransportError AgentKind × TwistedTransport :=
  match t.options.proxy.lookup (urlScheme req.url) with
  | some proxyVal =>
    match pySplit ':' proxyVal with
    | [hostname, portStr] =>
      match pyInt? portStr with
      | some port => (.ok (.proxyAgent hostname port t.options.timeout), t)
      | none => (.error .valueError, t)
    | _ => (.error .valueError, t)
  | none =>
    let (cf, t') := t.getContextFactory fs
    (.ok (.newAgent cf t.options.timeout), t')

/-- The pre-network part of `_request` (lines 250-278): build the headers,
select the agent, and assemble the call handed to `agent.request`, whose
body is `request.message or ""`. -/
def TwistedTransport.prepareCall (t : TwistedTransport)
    (req : TransportRequest) (method : String) (fs : FS) :
    Except TransportError HttpCall × TwistedTransport :=
  match t.prepareAgent req fs with
  | (.error e, t') => (.error e, t')
  | (.ok agent, t') =>
    (.ok { agent := agent, method := method, url := req.url
           headers := buildRequestHeaders req.headers t.options
           body := req.message.getD "" }, t')

/-- The event sequence `response.deliverBody(consumer)` produces for a
completed response: the body chunks in order, then the connection loss
that signals completion. -/
def deliverBodyEvents (resp : HttpResponse) : List ConsumerEvent :=
  resp.bodyChunks.map ConsumerEvent.dataReceived ++ [ConsumerEvent.connectionLost]

/-- `TwistedTransport._request` (lines 245-285): prepare and issue the
call, and on success feed the response body to a fresh
`StringResponseConsumer`, store the response on it, and return it.  The
third component records the HTTP calls issued. -/
def TwistedTransport.request (t : TwistedTransport) (req : TransportRequest)
    (method : String) (fs : FS) (net : HttpCall → NetOutcome) :
    Except TransportError StringResponseConsumer × TwistedTransport × List HttpCall :=
  match t.prepareCall req method fs with
  | (.error e, t') => (.error e, t', [])
  | (.ok call, t') =>
    match net call with
    | .failure reason => (.error (.connectionFailed reason), t', [call])
    | .success resp =>
      let consumer := runConsumer (deliverBodyEvents resp)
      (.ok { consumer with response := some resp }, t', [call])

/-- The suds `Reply` (external collaborator): status code, raw response
headers, and message body. -/
structure Reply where
  code : Nat
  headers : List (String × List String)
  message : String
deriving DecidableEq, Repr

/-- `TwistedTransport.send` (lines 312-331): dispatch through `_request`
with method `POST` and package the consumer's response into a `Reply`. -/
def TwistedTransport.send (t : TwistedTransport) (req : TransportRequest)
    (fs : FS) (net : HttpCall → NetOutcome) :
    Except TransportError Reply × TwistedTransport × List HttpCall :=
  match t.request req "POST" fs net with
  | (.error e, t', calls) => (.error e, t', calls)
  | (.ok consumer, t', calls) =>
    match consumer.response with
    | some resp =>
      (.ok { code := resp.code, headers := resp.headers
             message := consumer.body }, t', calls)
    | none => (.error .attributeError, t', calls)

/-- Netloc and path of a `file://` URL as `urlparse` splits them: the text
after `file://` up to the next `/` is the netloc, the rest the path. -/
def fileUrlNetlocPath (url : String) : String × String :=
  let rest := url.toList.drop 7
  let netloc := rest.takeWhile (fun c => c != '/')
  (String.mk netloc, String.mk (rest.drop netloc.length))

/-- The local file name `open` computes for a `file://` URL (lines
300-303): join netloc and path, then `url2pathname`. -/
def fileLocalName (url : String) : String :=
  let (netloc, path) := fileUrlNetlocPath url
  url2pathname (osPathJoin netloc path)

/-- `TwistedTransport.open` (lines 287-310): for a `file://` URL, read and
return the local file's contents without any HTTP activity; otherwise
dispatch through `_request` with method `GET` and return the accumulated
body. -/
def TwistedTransport.open_ (t : TwistedTransport) (req : TransportRequest)
    (fs : FS) (net : HttpCall → NetOutcome) :
    Except TransportError String × TwistedTransport × List HttpCall :=
  if pyStartswith req.url "file://" then
    match fs.files (fileLocalName req.url) with
    | some contents => (.ok contents, t, [])
    | none => (.error (.ioError (fileLocalName req.url)), t, [])
  else
    match t.request req "GET" fs net with
    | (.error e, t', calls) => (.error e, t', calls)
    | (.ok consumer, t', calls) => (.ok consumer.body, t', calls)

/-! ### ProxyAgent (lines 145-190 of the source)

Twisted `Headers` objects are case-insensitive maps from header name to a
list of raw values; we model them as association lists with
case-insensitive lookup.  The proxy endpoint is opaque connection data. -/

/-- A TCP client endpoint (host, port, timeout), as used for the proxy. -/
structure Endpoint where
  host : String
  port : Int
  timeout : Nat
deriving DecidableEq, Repr

/-- Models Twisted's `Headers.hasHeader` (external framework):
case-insensitive presence of a header name. -/
def headersHasHeader (hs : List (String × List String)) (name : String) : Bool :=
  hs.any (fun kv => pyLower kv.1 == pyLower name)

/-- Models `twisted.web.client._parse` (external framework): scheme, host,
port and path of a URI, with scheme-dependent default port. -/
def twParse (uri : String) : String × String × Int × String :=
  let url := pyStrip uri
  let scheme := urlScheme url
  let cs := if scheme == "" then url.toList else url.toList.drop (scheme.length + 1)
  let netlocPath : List Char × List Char :=
    match cs with
    | '/' :: '/' :: r =>
      let n := r.takeWhile (fun c => c != '/')
      (n, r.drop n.length)
    | _ => ([], cs)
  let defaultPort : Int := if scheme == "https" then 443 else 80
  let hostPort : String × Int :=
    match splitCharAux ':' netlocPath.1 [] with
    | [h, p] => (h, (pyInt? p).getD defaultPort)
    | _ => (String.mk netlocPath.1, defaultPort)
  (scheme, hostPort.1, hostPort.2,
    if netlocPath.2.isEmpty then "/" else String.mk netlocPath.2)

/-- Models `Agent._computeHostValue` (external framework): the host alone
on the scheme's default port, otherwise `host:port`. -/
def computeHostValue (scheme host : String) (port : Int) : String :=
  if (scheme == "http" && port == 80) || (scheme == "https" && port == 443) then host
  else host ++ ":" ++ toString port

/-- The `ProxyAgent` of lines 145-190, holding the endpoint used to reach
the proxy. -/
structure ProxyAgent where
  proxyEndpoint : Endpoint
deriving DecidableEq, Repr

/-- What a `ProxyAgent.request` call puts on the wire: the endpoint the
TCP connection is made to, and the request line and headers handed to
`proto.request`. -/
structure ProxyRequestResult where
  connectEndpoint : Endpoint
  requestMethod : String
  requestPath : String
  requestHeaders : List (String × List String)
deriving DecidableEq, Repr

/-- `ProxyAgent.request` (lines 169-190): parse the URI, connect to the
proxy endpoint (ignoring the parsed host and port), default missing
headers to an empty set, add a `host` header naming the original target
when none is present, and issue the request with the full URI as the
request path. -/
def ProxyAgent.request (a : ProxyAgent) (method uri : String)
    (headers : Option (List (String × List String))) : ProxyRequestResult :=
  let parsed := twParse uri
  let hs := headers.getD []
  let hs' :=
    if headersHasHeader hs "host" then hs
    else hs ++ [("host", [computeHostValue parsed.1 parsed.2.1 parsed.2.2.1])]
  { connectEndpoint := a.proxyEndpoint
    requestMethod := method
    requestPath := uri
    requestHeaders := hs' }

/-! ### Helper lemmas -/

theorem string_append_assoc (a b c : String) : a ++ b ++ c = a ++ (b ++ c) := by
  apply String.ext
  simp [String.data_append]

theorem foldl_step_body (events : List ConsumerEvent)
    (c : StringResponseConsumer) :
    (events.foldl StringResponseConsumer.step c).body
      = c.body ++ concatChunks (events.filterMap chunkOf) := by
  induction events generalizing c with
  | nil => simp [concatChunks]
  | cons e rest ih =>
    cases e <;>
      simp [StringResponseConsumer.step, chunkOf, ih, concatChunks,
        string_append_assoc]

theorem foldl_step_fired (events : List ConsumerEvent)
    (c : StringResponseConsumer) :
    (events.foldl StringResponseConsumer.step c).fired
      = (c.fired || events.any isCompletionEvent) := by
  induction events generalizing c with
  | nil => simp
  | cons e rest ih =>
    cases e <;> simp [StringResponseConsumer.step, isCompletionEvent, ih]

/-! ### Claims -/

/-- C4: for every sequence of delivered events, the consumer's `body` is
the concatenation, in delivery order and starting from the empty string,
of the chunks passed to `dataReceived`, and the `_finished` deferred has
fired (with the consumer itself as its value) exactly when a
`connectionLost` or `responseWithoutBody` callback occurred. -/
theorem consumer_accumulates_and_fires (events : List ConsumerEvent) :
    (runConsumer events).body = concatChunks (events.filterMap chunkOf) ∧
    ((runConsumer events).fired = true ↔
      ∃ e ∈ events, isCompletionEvent e = true) := by
  constructor
  · simpa [runConsumer, initConsumer] using foldl_step_body events initConsumer
  · simp [runConsumer, initConsumer, foldl_step_fired, List.any_eq_true]

theorem runConsumer_body (events : List ConsumerEvent) :
    (runConsumer events).body = concatChunks (events.filterMap chunkOf) := by
  simpa [runConsumer, initConsumer] using foldl_step_body events initConsumer

theorem filterMap_chunkOf_data (l : List String) :
    l.filterMap (chunkOf ∘ ConsumerEvent.dataReceived) = l := by
  induction l with
  | nil => rfl
  | cons a rest ih => simp [chunkOf, ih, Function.comp]

theorem deliverBody_chunks (resp : HttpResponse) :
    (deliverBodyEvents resp).filterMap chunkOf = resp.bodyChunks := by
  simp [deliverBodyEvents, List.filterMap_append, List.filterMap_map,
    filterMap_chunkOf_data, chunkOf]

/-- Concrete fixtures used by the claim witnesses. -/
def tlsExtra0 : TLSExtra := ⟨"", "", "", "", "", "", "", "", "", ""⟩

def options0 : Options :=
  { username := none, password := none, proxy := [], timeout := 90
    certificate := none, privateKey := none, tlsExtra := tlsExtra0 }

def cf0 : ContextFactory :=
  { certificate := none, privateKey := none, extra := tlsExtra0 }

def t0 : TwistedTransport :=
  { options := options0, contextFactoryCache := some cf0 }

def fs0 : FS := ⟨fun _ => none⟩

def req0 : TransportRequest :=
  { url := "http://h/x", headers := [("SOAPAction", "a")], message := some "m" }

def resp0 : HttpResponse :=
  { code := 200, headers := [("X", ["y"])], bodyChunks := ["ab", "cd"] }

def call0 : HttpCall :=
  { agent := .newAgent cf0 90, method := "POST", url := "http://h/x"
    headers := [("SOAPAction", "a")], body := "m" }

def net0 : HttpCall → NetOutcome := fun _ => .success resp0

/-- C1: when the HTTP exchange completes, `send` returns a `Reply` whose
code is the response's status code, whose headers are the dictionary of
all raw response headers, and whose message is the full accumulated
response body. -/
theorem send_success_reply (t : TwistedTransport) (req : TransportRequest)
    (fs : FS) (net : HttpCall → NetOutcome) (call : HttpCall)
    (t' : TwistedTransport) (resp : HttpResponse)
    (hprep : t.prepareCall req "POST" fs = (.ok call, t'))
    (hnet : net call = .success resp) :
    (t.send req fs net).1 =
      .ok { code := resp.code, headers := resp.headers
            message := concatChunks resp.bodyChunks } := by
  simp [TwistedTransport.send, TwistedTransport.request, hprep, hnet,
    runConsumer_body, deliverBody_chunks]

theorem send_success_reply_witness :
    (t0.send req0 fs0 net0).1 =
      Except.ok { code := 200, headers := [("X", ["y"])], message := "abcd" } :=
  (send_success_reply t0 req0 fs0 net0 call0 t0 resp0 rfl rfl).trans rfl

theorem request_calls_method (t : TwistedTransport) (req : TransportRequest)
    (method : String) (fs : FS) (net : HttpCall → NetOutcome) :
    ((t.request req method fs net).2.2.all
      (fun c => c.method == method)) = true := by
  unfold TwistedTransport.request TwistedTransport.prepareCall
  rcases hp : t.prepareAgent req fs with ⟨res, tp⟩
  rcases res with e | a
  · simp
  · dsimp only
    split <;> simp

/-- C2: `open` issues its HTTP request with method `GET` and `send` with
method `POST`; both delegate to the same `_request` helper, whose
pre-network stage differs only in the method string stored in the issued
call (same agent, headers, URL, body, and same state transition). -/
theorem open_get_send_post (t : TwistedTransport) (req : TransportRequest)
    (fs : FS) (net : HttpCall → NetOutcome) :
    ((t.open_ req fs net).2.2.all (fun c => c.method == "GET")) = true ∧
    ((t.send req fs net).2.2.all (fun c => c.method == "POST")) = true ∧
    Except.map (fun c => { c with method := "POST" })
        (t.prepareCall req "GET" fs).1 = (t.prepareCall req "POST" fs).1 ∧
    (t.prepareCall req "GET" fs).2 = (t.prepareCall req "POST" fs).2 := by
  refine ⟨?_, ?_, ?_, ?_⟩
  · unfold TwistedTransport.open_
    by_cases hf : pyStartswith req.url "file://"
    · rcases hfs : fs.files (fileLocalName req.url) with _ | c <;> simp [hf, hfs]
    · have h := request_calls_method t req "GET" fs net
      rcases hr : t.request req "GET" fs net with ⟨res, t', calls⟩
      rcases res with e | consumer <;> simp [hf, hr] <;> simpa [hr] using h
  · have h := request_calls_method t req "POST" fs net
    unfold TwistedTransport.send
    rcases hr : t.request req "POST" fs net with ⟨res, t', calls⟩
    rcases res with e | consumer
    · simpa [hr] using h
    · rcases hres : consumer.response with _ | resp <;>
        simp [hres] <;> simpa [hr] using h
  · unfold TwistedTransport.prepareCall
    rcases hp : t.prepareAgent req fs with ⟨res, tp⟩
    rcases res with e | a <;> simp [Except.map]
  · unfold TwistedTransport.prepareCall
    rcases hp : t.prepareAgent req fs with ⟨res, tp⟩
    rcases res with e | a <;> simp

def optionsP : Options := { options0 with proxy := [("http", "proxy.example:3128")] }

def tP : TwistedTransport := { options := optionsP, contextFactoryCache := none }

/-- C5: `_request` selects a `ProxyAgent` aimed at the configured proxy
host and port exactly when `options.proxy` has an entry for the scheme of
the request URL (and the entry is a well-formed `host:port`); with no
entry it selects a direct `NewAgent` with the transport's context factory
and the configured connect timeout. -/
theorem agent_selection (t : TwistedTransport) (req : TransportRequest)
    (method : String) (fs : FS) :
    (∀ pv hostname portStr port,
        t.options.proxy.lookup (urlScheme req.url) = some pv →
        pySplit ':' pv = [hostname, portStr] →
        pyInt? portStr = some port →
        ∃ call, (t.prepareCall req method fs).1 = .ok call ∧
          call.agent = .proxyAgent hostname port t.options.timeout) ∧
    (t.options.proxy.lookup (urlScheme req.url) = none →
        ∃ call, (t.prepareCall req method fs).1 = .ok call ∧
          call.agent = .newAgent (t.getContextFactory fs).1 t.options.timeout) := by
  constructor
  · intro pv hostname portStr port hl hs hi
    unfold TwistedTransport.prepareCall TwistedTransport.prepareAgent
    simp only [hl, hs, hi]
    exact ⟨_, rfl, rfl⟩
  · intro hl
    unfold TwistedTransport.prepareCall TwistedTransport.prepareAgent
    rcases hcf : t.getContextFactory fs with ⟨cf, t'⟩
    simp only [hl, hcf]
    exact ⟨_, rfl, rfl⟩

theorem agent_selection_witness :
    (∃ call, (tP.prepareCall req0 "POST" fs0).1 = .ok call ∧
      call.agent = .proxyAgent "proxy.example" 3128 90) ∧
    (∃ call, (t0.prepareCall req0 "GET" fs0).1 = .ok call ∧
      call.agent = .newAgent (t0.getContextFactory fs0).1 90) :=
  ⟨(agent_selection tP req0 "POST" fs0).1 "proxy.example:3128" "proxy.example"
      "3128" 3128 (by rfl) (by rfl) (by rfl),
   (agent_selection t0 req0 "GET" fs0).2 (by rfl)⟩

def optionsA : Options :=
  { options0 with username := some "user", password := some "secret" }

/-- C6: the headers `_request` sends are the copied request headers, plus
an `Authorization` header valued `Basic ` followed by the (stripped)
base64 encoding of `username:password` exactly when both `username` and
`password` are set; when either is `None`, only the copied headers are
sent. -/
theorem auth_header (reqHeaders : List (String × String)) (o : Options) :
    (∀ u p, o.username = some u → o.password = some p →
        buildRequestHeaders reqHeaders o =
          reqHeaders ++ [("Authorization",
            "Basic " ++ pyStrip (pyEncodestring (strBytes (u ++ ":" ++ p))))]) ∧
    ((o.username = none ∨ o.password = none) →
        buildRequestHeaders reqHeaders o = reqHeaders) ∧
    (∀ (t : TwistedTransport) (req : TransportRequest) (method : String)
        (fs : FS) (call : HttpCall) (t' : TwistedTransport),
        t.options = o → req.headers = reqHeaders →
        t.prepareCall req method fs = (.ok call, t') →
        call.headers = buildRequestHeaders reqHeaders o) := by
  refine ⟨?_, ?_, ?_⟩
  · intro u p hu hp
    simp [buildRequestHeaders, hu, hp]
  · intro h
    unfold buildRequestHeaders
    rcases hu : o.username with _ | u <;> rcases hp2 : o.password with _ | p <;>
      simp_all
  · intro t req method fs call t' hopt hhdr hprep
    unfold TwistedTransport.prepareCall at hprep
    rcases hp : t.prepareAgent req fs with ⟨res, tp⟩
    rw [hp] at hprep
    rcases res with e | a
    · exact absurd hprep (by simp)
    · simp only [Prod.mk.injEq, Except.ok.injEq] at hprep
      obtain ⟨hcall, -⟩ := hprep
      rw [← hcall, hopt, hhdr]

theorem auth_header_witness :
    buildRequestHeaders [("SOAPAction", "a")] optionsA =
      [("SOAPAction", "a"), ("Authorization", "Basic dXNlcjpzZWNyZXQ=")] :=
  ((auth_header [("SOAPAction", "a")] optionsA).1 "user" "secret" (by rfl)
    (by rfl)).trans (by rfl)

theorem getContextFactory_state (t : TwistedTransport) (fs : FS) :
    (t.getContextFactory fs).2 = t ∨
    (t.contextFactoryCache = none ∧
      (t.getContextFactory fs).2
        = { t with contextFactoryCache := some (buildContextFactory t.options fs) }) := by
  unfold TwistedTransport.getContextFactory
  rcases hc : t.contextFactoryCache with _ | cf
  · right
    exact ⟨rfl, rfl⟩
  · left
    rfl

theorem prepareAgent_state (t : TwistedTransport) (req : TransportRequest)
    (fs : FS) :
    (t.prepareAgent req fs).2 = t ∨
    (t.contextFactoryCache = none ∧
      (t.prepareAgent req fs).2
        = { t with contextFactoryCache := some (buildContextFactory t.options fs) }) := by
  unfold TwistedTransport.prepareAgent
  rcases hl : t.options.proxy.lookup (urlScheme req.url) with _ | pv
  · rcases hg : t.getContextFactory fs with ⟨cf, tg⟩
    have h := getContextFactory_state t fs
    rw [hg] at h
    simpa using h
  · rcases hs : pySplit ':' pv with _ | ⟨h1, _ | ⟨p1, _ | ⟨x, tl⟩⟩⟩
    · left; simp [hs]
    · left; simp [hs]
    · rcases hi : pyInt? p1 with _ | port
      · left; simp [hs, hi]
      · left; simp [hs, hi]
    · left; simp [hs]

theorem prepareAgent_options (t : TwistedTransport) (req : TransportRequest)
    (fs : FS) :
    ((t.prepareAgent req fs).2).options = t.options := by
  rcases prepareAgent_state t req fs with h | ⟨-, h⟩ <;> rw [h]

theorem prepareCall_state (t : TwistedTransport) (req : TransportRequest)
    (method : String) (fs : FS) :
    (t.prepareCall req method fs).2 = (t.prepareAgent req fs).2 := by
  unfold TwistedTransport.prepareCall
  rcases hp : t.prepareAgent req fs with ⟨res, tp⟩
  rcases res with e | a <;> simp

theorem request_state (t : TwistedTransport) (req : TransportRequest)
    (method : String) (fs : FS) (net : HttpCall → NetOutcome) :
    (t.request req method fs net).2.1 = (t.prepareCall req method fs).2 := by
  unfold TwistedTransport.request
  rcases hp : t.prepareCall req method fs with ⟨res, tp⟩
  rcases res with e | call
  · simp
  · dsimp only
    split <;> simp

theorem send_state (t : TwistedTransport) (req : TransportRequest) (fs : FS)
    (net : HttpCall → NetOutcome) :
    (t.send req fs net).2.1 = (t.prepareCall req "POST" fs).2 := by
  unfold TwistedTransport.send
  have h := request_state t req "POST" fs net
  rcases hr : t.request req "POST" fs net with ⟨res, tp, calls⟩
  rw [hr] at h
  simp only at h
  rcases res with e | c
  · simpa using h
  · rcases hres : c.response with _ | resp <;> simp [hres] <;> exact h

theorem open_state (t : TwistedTransport) (req : TransportRequest) (fs : FS)
    (net : HttpCall → NetOutcome)
    (hfile : pyStartswith req.url "file://" = false) :
    (t.open_ req fs net).2.1 = (t.prepareCall req "GET" fs).2 := by
  unfold TwistedTransport.open_
  have h := request_state t req "GET" fs net
  rcases hr : t.request req "GET" fs net with ⟨res, tp, calls⟩
  rw [hr] at h
  simp only at h
  rcases res with e | c <;> simp [hfile, hr] <;> exact h

theorem request_allfail (t : TwistedTransport) (req : TransportRequest)
    (method : String) (fs : FS) (net : HttpCall → NetOutcome) (reason : String)
    (hnet : ∀ c, net c = NetOutcome.failure reason) :
    ∃ e, (t.request req method fs net).1 = Except.error e := by
  unfold TwistedTransport.request
  rcases hp : t.prepareCall req method fs with ⟨res, tp⟩
  rcases res with e | call
  · exact ⟨e, by simp⟩
  · exact ⟨.connectionFailed reason, by simp [hnet call]⟩

theorem send_allfail (t : TwistedTransport) (req : TransportRequest) (fs : FS)
    (net : HttpCall → NetOutcome) (reason : String)
    (hnet : ∀ c, net c = NetOutcome.failure reason) :
    ∃ e, (t.send req fs net).1 = Except.error e := by
  unfold TwistedTransport.send
  obtain ⟨e, he⟩ := request_allfail t req "POST" fs net reason hnet
  rcases hr : t.request req "POST" fs net with ⟨res, tp, calls⟩
  rw [hr] at he
  rcases res with e2 | c
  · exact ⟨e2, by simp⟩
  · simp at he

theorem open_allfail (t : TwistedTransport) (req : TransportRequest) (fs : FS)
    (net : HttpCall → NetOutcome) (reason : String)
    (hnet : ∀ c, net c = NetOutcome.failure reason)
    (hfile : pyStartswith req.url "file://" = false) :
    ∃ e, (t.open_ req fs net).1 = Except.error e := by
  unfold TwistedTransport.open_
  obtain ⟨e, he⟩ := request_allfail t req "GET" fs net reason hnet
  rcases hr : t.request req "GET" fs net with ⟨res, tp, calls⟩
  rw [hr] at he
  rcases res with e2 | c
  · exact ⟨e2, by simp [hfile]⟩
  · simp at he

theorem send_fail_reason (t : TwistedTransport) (req : TransportRequest)
    (fs : FS) (net : HttpCall → NetOutcome) (reason : String) (call : HttpCall)
    (t' : TwistedTransport)
    (hprep : t.prepareCall req "POST" fs = (.ok call, t'))
    (hnet : net call = NetOutcome.failure reason) :
    (t.send req fs net).1 = Except.error (.connectionFailed reason) := by
  simp [TwistedTransport.send, TwistedTransport.request, hprep, hnet]

def t3 : TwistedTransport := { options := options0, contextFactoryCache := none }

def t3' : TwistedTransport := { options := options0, contextFactoryCache := some cf0 }

def call3 : HttpCall :=
  { agent := .newAgent cf0 90, method := "POST", url := "http://h/x"
    headers := [("SOAPAction", "a")], body := "m" }

def netFail : HttpCall → NetOutcome := fun _ => .failure "Connection refused"

/-- C3 counterexample: with an empty context-factory cache, no proxy entry,
and a network that refuses every connection, a failed `send` leaves the
transport with a populated cache — the transport state is not unchanged by
the failure, contrary to the claim. -/
theorem send_failure_changes_state :
    (t3.send req0 fs0 netFail).2.1.contextFactoryCache
      ≠ t3.contextFactoryCache := by
  decide

/-- C3 (amended): when the connection or exchange fails, `send` and `open`
produce no reply value and propagate the failure; the options are
unchanged; the cached context factory is unchanged except that a
non-proxied dispatch populates an empty cache with the factory built from
the current options — the same state transition a successful dispatch
makes, so the post-call state does not depend on the network outcome. -/
theorem failure_no_reply (t : TwistedTransport) (req : TransportRequest)
    (fs : FS) (net : HttpCall → NetOutcome) (reason : String)
    (hnet : ∀ c, net c = NetOutcome.failure reason)
    (hfile : pyStartswith req.url "file://" = false) :
    (∃ e, (t.send req fs net).1 = Except.error e) ∧
    (∃ e, (t.open_ req fs net).1 = Except.error e) ∧
    (∀ call t', t.prepareCall req "POST" fs = (.ok call, t') →
        (t.send req fs net).1 = Except.error (.connectionFailed reason)) ∧
    (t.send req fs net).2.1.options = t.options ∧
    (t.open_ req fs net).2.1.options = t.options ∧
    ((t.send req fs net).2.1.contextFactoryCache = t.contextFactoryCache ∨
      (t.contextFactoryCache = none ∧
        (t.send req fs net).2.1.contextFactoryCache
          = some (buildContextFactory t.options fs))) ∧
    (∀ net', (t.send req fs net').2.1 = (t.send req fs net).2.1) := by
  refine ⟨send_allfail t req fs net reason hnet,
          open_allfail t req fs net reason hnet hfile, ?_, ?_, ?_, ?_, ?_⟩
  · intro call t' hprep
    exact send_fail_reason t req fs net reason call t' hprep (hnet call)
  · rw [send_state, prepareCall_state, prepareAgent_options]
  · rw [open_state t req fs net hfile, prepareCall_state, prepareAgent_options]
  · rw [send_state, prepareCall_state]
    rcases prepareAgent_state t req fs with h | ⟨hc, h⟩
    · left; rw [h]
    · right; exact ⟨hc, by rw [h]⟩
  · intro net'
    rw [send_state, send_state]

theorem failure_no_reply_witness :
    (t3.send req0 fs0 netFail).1
      = Except.error (TransportError.connectionFailed "Connection refused") :=
  (failure_no_reply t3 req0 fs0 netFail "Connection refused" (fun c => rfl)
    (by rfl)).2.2.1 call3 t3' (by rfl)

def proxyA : ProxyAgent := ⟨⟨"p.example", 3128, 90⟩⟩

/-- C7: every request through `ProxyAgent` connects to the configured
proxy endpoint whatever host and port the URI parses to, transmits the
full URI as the request path, and adds a `host` header naming the original
target exactly when the caller's headers lack one (case-insensitively);
existing caller headers are preserved unchanged. -/
theorem proxy_agent_routes (a : ProxyAgent) (method uri : String)
    (headers : Option (List (String × List String))) :
    (a.request method uri headers).connectEndpoint = a.proxyEndpoint ∧
    (a.request method uri headers).requestPath = uri ∧
    (∀ hs, headers = some hs → headersHasHeader hs "host" = true →
        (a.request method uri headers).requestHeaders = hs) ∧
    (∀ hs, headers = some hs → headersHasHeader hs "host" = false →
        (a.request method uri headers).requestHeaders =
          hs ++ [("host", [computeHostValue (twParse uri).1 (twParse uri).2.1
            (twParse uri).2.2.1])]) := by
  refine ⟨rfl, rfl, ?_, ?_⟩
  · intro hs hh hhas
    subst hh
    simp [ProxyAgent.request, hhas]
  · intro hs hh hhas
    subst hh
    simp [ProxyAgent.request, hhas]

theorem proxy_agent_routes_witness :
    (proxyA.request "GET" "http://target:8080/x"
        (some [("x-a", ["1"])])).requestHeaders
      = [("x-a", ["1"]), ("host", ["target:8080"])] ∧
    (proxyA.request "GET" "http://target:8080/x"
        (some [("Host", ["u"])])).requestHeaders = [("Host", ["u"])] ∧
    (proxyA.request "GET" "http://target:8080/x"
        (some [("x-a", ["1"])])).connectEndpoint = ⟨"p.example", 3128, 90⟩ :=
  ⟨((proxy_agent_routes proxyA "GET" "http://target:8080/x"
      (some [("x-a", ["1"])])).2.2.2 [("x-a", ["1"])] rfl (by rfl)).trans
      (by decide),
   (proxy_agent_routes proxyA "GET" "http://target:8080/x"
      (some [("Host", ["u"])])).2.2.1 [("Host", ["u"])] rfl (by rfl),
   (proxy_agent_routes proxyA "GET" "http://target:8080/x"
      (some [("x-a", ["1"])])).1⟩

/-- C8: `ContextFactory.getContext` ignores its hostname and port, so any
two host/port pairs get the same TLS context (no per-host verification);
and the factory built from the options carries a certificate and private
key that are read from the filesystem when the option value names an
existing file, and otherwise parsed as literal PEM data. -/
theorem tls_context_and_material (o : Options) (fs : FS) :
    (∀ (cf : ContextFactory) (h1 : String) (p1 : Int) (h2 : String) (p2 : Int),
        cf.getContext h1 p1 = cf.getContext h2 p2) ∧
    (∀ s, o.certificate = some s → s ≠ "" →
        (buildContextFactory o fs).certificate
          = some (PEMObject.mk ((fs.files s).getD s))) ∧
    (∀ s, o.privateKey = some s → s ≠ "" →
        (buildContextFactory o fs).privateKey
          = some (PEMObject.mk ((fs.files s).getD s))) := by
  refine ⟨fun cf h1 p1 h2 p2 => rfl, ?_, ?_⟩
  · intro s hc hne
    have hb : (s == "") = false := by simpa using hne
    rcases hf : fs.files s with _ | data <;>
      simp [buildContextFactory, loadPemMaybe, hc, hb, hf]
  · intro s hk hne
    have hb : (s == "") = false := by simpa using hne
    rcases hf : fs.files s with _ | data <;>
      simp [buildContextFactory, loadPemMaybe, hk, hb, hf]

def fsC : FS := ⟨fun p => if p == "/etc/key.pem" then some "KEYPEM" else none⟩

def optionsC : Options :=
  { options0 with certificate := some "CERTPEM"
                  privateKey := some "/etc/key.pem" }

theorem tls_context_and_material_witness :
    cf0.getContext "a" 1 = cf0.getContext "b" 2 ∧
    (buildContextFactory optionsC fsC).certificate
      = some (PEMObject.mk "CERTPEM") ∧
    (buildContextFactory optionsC fsC).privateKey
      = some (PEMObject.mk "KEYPEM") :=
  ⟨(tls_context_and_material optionsC fsC).1 cf0 "a" 1 "b" 2,
   ((tls_context_and_material optionsC fsC).2.1 "CERTPEM" rfl
      (by decide)).trans (by rfl),
   ((tls_context_and_material optionsC fsC).2.2 "/etc/key.pem" rfl
      (by decide)).trans (by rfl)⟩

/-- C9: `open` on a `file://` URL returns the referenced local file's
contents directly and issues no HTTP call at all; for every non-file URL
it is exactly the GET dispatch through `_request` (body projected from the
consumer, same state and same issued calls). -/
theorem open_file_url (t : TwistedTransport) (req : TransportRequest)
    (fs : FS) (net : HttpCall → NetOutcome) :
    (pyStartswith req.url "file://" = true →
        (t.open_ req fs net).2.2 = [] ∧
        (t.open_ req fs net).2.1 = t ∧
        (∀ contents, fs.files (fileLocalName req.url) = some contents →
          (t.open_ req fs net).1 = .ok contents)) ∧
    (pyStartswith req.url "file://" = false →
        (t.open_ req fs net).2.2 = (t.request req "GET" fs net).2.2 ∧
        (t.open_ req fs net).1
          = (t.request req "GET" fs net).1.map StringResponseConsumer.body) := by
  constructor
  · intro hfile
    refine ⟨?_, ?_, ?_⟩ <;>
      rcases hf : fs.files (fileLocalName req.url) with _ | c <;>
        simp [TwistedTransport.open_, hfile, hf]
  · intro hfile
    unfold TwistedTransport.open_
    rcases hr : t.request req "GET" fs net with ⟨res, tp, calls⟩
    rcases res with e | c <;> simp [hfile, hr, Except.map]

def reqF : TransportRequest :=
  { url := "file:///tmp/svc.wsdl", headers := [], message := none }

def fsF : FS := ⟨fun p => if p == "/tmp/svc.wsdl" then some "WSDL" else none⟩

theorem open_file_url_witness :
    (t0.open_ reqF fsF net0).2.2 = [] ∧
    (t0.open_ reqF fsF net0).1 = .ok "WSDL" :=
  ⟨((open_file_url t0 reqF fsF net0).1 (by rfl)).1,
   ((open_file_url t0 reqF fsF net0).1 (by rfl)).2.2 "WSDL" (by rfl)⟩

/-- C10: the `contextFactory` property is memoized: a first access (empty
cache) builds the factory from the options current at that moment and
stores it; every later access returns the stored factory unchanged,
whatever the options and filesystem have become. -/
theorem contextFactory_memoized (t : TwistedTransport) (fs : FS) :
    (t.contextFactoryCache = none →
        t.getContextFactory fs
          = (buildContextFactory t.options fs,
             { t with contextFactoryCache
                        := some (buildContextFactory t.options fs) })) ∧
    (∀ cf, t.contextFactoryCache = some cf →
        ∀ (o' : Options) (fs' : FS),
          TwistedTransport.getContextFactory
              { options := o', contextFactoryCache := some cf } fs'
            = (cf, { options := o', contextFactoryCache := some cf })) := by
  constructor
  · intro hc
    unfold TwistedTransport.getContextFactory
    rw [hc]
  · intro cf hc o' fs'
    rfl

theorem contextFactory_memoized_witness :
    t3.getContextFactory fs0 = (cf0, t3') ∧
    TwistedTransport.getContextFactory
        { options := optionsA, contextFactoryCache := some cf0 } fs0
      = (cf0, { options := optionsA, contextFactoryCache := some cf0 }) :=
  ⟨((contextFactory_memoized t3 fs0).1 rfl).trans (by rfl),
   (contextFactory_memoized t3' fs0).2 cf0 rfl optionsA fs0⟩

end TxSuds
